import Mathlib

/-!
Shallow embedding of the CMAB (CTR Material Animation Binary) decoder and
sampler from `src/oot3d/cmab.ts`, together with theorems checking the
specification's claims about it.

Modelling conventions:
  * A byte buffer is a `List Nat` of bytes (each entry is a byte value).
  * JavaScript numbers are modelled by `ℚ`; unsigned integer reads produce
    naturals which are cast to `ℚ` where the code stores them in keyframes.
  * `DataView` reads are little-endian and bounds-checked: an out-of-range
    read is `none`, which the parser turns into the spec's `MalformedData`
    error (spec §4.1: all reads beyond the buffer's bounds fail with
    `MalformedData`).
  * IEEE-754 binary32 decoding is modelled exactly over `ℚ` for finite
    values (normal and subnormal); the exponent-255 patterns (infinities and
    NaNs) have no rational value and are outside the model — no claim below
    exercises them.
  * Exceptions (`assert` failures, `throw`) are modelled with `Except`
    using the spec's error taxonomy (§7): `MalformedData`,
    `UnsupportedTrackType`, `InvalidEntryType`.
  * JavaScript array quirks are modelled explicitly: `Array.findIndex`
    returns `-1` when no element matches (`jsFindIndex`), and reading a
    negative or out-of-range index yields `undefined`, modelled as `none`
    (`jsIndex`); a subsequent property access on `undefined` (a TypeError)
    propagates as `none`.
-/

/-- Little-endian unsigned 16-bit read at a byte offset (DataView.getUint16). -/
def getUint16LE (buf : List Nat) (offs : Nat) : Option Nat := do
  let b0 ← buf[offs]?
  let b1 ← buf[offs + 1]?
  pure (b0 + b1 * 0x100)

/-- Little-endian unsigned 32-bit read at a byte offset (DataView.getUint32). -/
def getUint32LE (buf : List Nat) (offs : Nat) : Option Nat := do
  let b0 ← buf[offs]?
  let b1 ← buf[offs + 1]?
  let b2 ← buf[offs + 2]?
  let b3 ← buf[offs + 3]?
  pure (b0 + b1 * 0x100 + b2 * 0x10000 + b3 * 0x1000000)

/-- Exact rational value of an IEEE-754 binary32 bit pattern (finite values:
normal and subnormal; the exponent-255 patterns, infinities and NaNs, lie
outside this rational model and are not exercised by any claim). -/
def f32FromBits (b : Nat) : ℚ :=
  let sign : Nat := b / 2 ^ 31 % 2
  let ex : Nat := b / 2 ^ 23 % 2 ^ 8
  let mant : Nat := b % 2 ^ 23
  let mag : ℚ :=
    if ex = 0 then (mant : ℚ) / 2 ^ 149
    else ((2 ^ 23 + mant : ℚ) * 2 ^ ex) / 2 ^ 150
  if sign = 1 then -mag else mag

/-- Little-endian 32-bit float read at a byte offset (DataView.getFloat32). -/
def getFloat32LE (buf : List Nat) (offs : Nat) : Option ℚ :=
  (getUint32LE buf offs).map f32FromBits

/-- Modelled from the spec: `readString` (from `src/util.ts`, which is not
among the provided sources) reads a fixed-length ASCII tag at an offset for
signature checks; a read beyond the buffer's bounds fails (spec §4.1), which
the callers turn into `MalformedData`. -/
def readTag (buf : List Nat) (offs len : Nat) : Option (List Nat) :=
  if offs + len ≤ buf.length then some ((buf.drop offs).take len) else none

/-- ASCII bytes of the container signature "cmab". -/
def cmabSig : List Nat := [0x63, 0x6D, 0x61, 0x62]

/-- ASCII bytes of the string-table signature "strt". -/
def strtSig : List Nat := [0x73, 0x74, 0x72, 0x74]

/-- ASCII bytes of the animation-entry signature "mmad". -/
def mmadSig : List Nat := [0x6D, 0x6D, 0x61, 0x64]

/-- ASCII bytes of the animation-table signature "mads". -/
def madsSig : List Nat := [0x6D, 0x61, 0x64, 0x73]

/-- Spec §7 error taxonomy: the source throws untyped strings; the spec types
them as `MalformedData` (assert/signature/bounds failures),
`UnsupportedTrackType` (track type tag outside Linear/Hermite) and
`InvalidEntryType` (evaluator bound to a mismatched entry semantic). -/
inductive CmabError where
  | MalformedData
  | UnsupportedTrackType
  | InvalidEntryType
deriving DecidableEq, Repr

/-- Turn a bounds-checked read into a parse step (`MalformedData` on a read
past the end of the buffer, per spec §4.1). -/
def rd {α : Type} (o : Option α) : Except CmabError α :=
  match o with
  | some x => .ok x
  | none => .error .MalformedData

/-- The source's `assert` from `src/util.ts`, typed per spec §7: a failed
validation aborts the parse with `MalformedData`. -/
def assertE (b : Bool) : Except CmabError Unit :=
  if b then .ok () else .error .MalformedData

/-- Read a 4-byte tag and assert it equals the expected signature. -/
def assertTag (buf : List Nat) (offs : Nat) (sig : List Nat) : Except CmabError Unit :=
  match readTag buf offs 4 with
  | some t => if t = sig then .ok () else .error .MalformedData
  | none => .error .MalformedData

/-- Format version (`Version` in the source): Ocarina uses 32-bit track
header fields, Majora 16-bit ones. -/
inductive Version where
  | Ocarina
  | Majora
deriving DecidableEq, Repr

inductive LoopMode where
  | ONCE
  | REPEAT
deriving DecidableEq, Repr

structure AnimationKeyframeLinear where
  time : ℚ
  value : ℚ
deriving DecidableEq, Repr

structure AnimationKeyframeHermite where
  time : ℚ
  value : ℚ
  tangentIn : ℚ
  tangentOut : ℚ
deriving DecidableEq, Repr

/-- Tagged union of the two track variants (`AnimationTrack` in the source). -/
inductive AnimationTrack where
  | linear (frames : List AnimationKeyframeLinear)
  | hermite (frames : List AnimationKeyframeHermite)
deriving DecidableEq, Repr

/-- One "mmad" animation entry. `tracks` is the JS sparse array of track
slots: `none` entries are the holes the source leaves at offset-0 slots (and
the `undefined` results of zero-keyframe tracks). -/
structure AnimationEntry where
  animationType : Nat
  materialIndex : Nat
  channelIndex : Nat
  tracks : List (Option AnimationTrack)
deriving DecidableEq, Repr

structure AnimationBase where
  duration : ℚ
  loopMode : LoopMode
deriving DecidableEq, Repr

structure CMAB extends AnimationBase where
  animEntries : List AnimationEntry
deriving DecidableEq, Repr

/-- Header reads of `parseTrack` (`type`, `numKeyframes`, `timeEnd`,
`unk1`/`unk2`), version-dependent widths as in the source; returns the
`(type, numKeyframes)` pair the rest of the function dispatches on. -/
def parseTrackHeader (version : Version) (buffer : List Nat) : Option (Nat × Nat) :=
  match version with
  | Version.Ocarina => do
      let ty ← getUint32LE buffer 0x00
      let numKeyframes ← getUint32LE buffer 0x04
      let _timeEnd ← getUint32LE buffer 0x08
      let _unk2 ← getUint32LE buffer 0x0C
      pure (ty, numKeyframes)
  | Version.Majora => do
      let ty ← getUint16LE buffer 0x00
      let numKeyframes ← getUint16LE buffer 0x02
      let _timeEnd ← getUint32LE buffer 0x04
      let _unk1 ← getFloat32LE buffer 0x08
      let _unk2 ← getUint32LE buffer 0x0C
      pure (ty, numKeyframes)

/-- Keyframe loop of the Linear branch of `parseTrack`: each keyframe is
8 bytes, u32 `time` then f32 `value`. -/
def parseLinearFrames (buffer : List Nat) (idx : Nat) : Nat → Except CmabError (List AnimationKeyframeLinear)
  | 0 => .ok []
  | n + 1 => do
      let time ← rd (getUint32LE buffer (idx + 0x00))
      let value ← rd (getFloat32LE buffer (idx + 0x04))
      let rest ← parseLinearFrames buffer (idx + 0x08) n
      .ok ({ time := (time : ℚ), value := value } :: rest)

/-- Keyframe loop of the Hermite branch of `parseTrack`: each keyframe is
16 bytes. NOTE: the source reads `tangentIn` and `tangentOut` with
`view.getUint32`, not `view.getFloat32` (src/oot3d/cmab.ts lines 112-113),
so the stored tangents are the unsigned-integer reinterpretation of those
bytes; this embedding reproduces that faithfully. -/
def parseHermiteFrames (buffer : List Nat) (idx : Nat) : Nat → Except CmabError (List AnimationKeyframeHermite)
  | 0 => .ok []
  | n + 1 => do
      let time ← rd (getUint32LE buffer (idx + 0x00))
      let value ← rd (getFloat32LE buffer (idx + 0x04))
      let tangentIn ← rd (getUint32LE buffer (idx + 0x08))
      let tangentOut ← rd (getUint32LE buffer (idx + 0x0C))
      let rest ← parseHermiteFrames buffer (idx + 0x10) n
      .ok ({ time := (time : ℚ), value := value,
             tangentIn := (tangentIn : ℚ), tangentOut := (tangentOut : ℚ) } :: rest)

/-- `parseTrack` from the source: reads the version-dependent header, returns
the no-track sentinel (`none`, the source's `undefined`) when the keyframe
count is zero, otherwise dispatches on the type tag (Linear = 1,
Hermite = 2); any other tag throws (`UnsupportedTrackType` per spec §7). -/
def parseTrack (version : Version) (buffer : List Nat) : Except CmabError (Option AnimationTrack) := do
  let hdr ← rd (parseTrackHeader version buffer)
  let ty := hdr.1
  let numKeyframes := hdr.2
  if numKeyframes = 0 then
    pure none
  else if ty = 1 then do
    let frames ← parseLinearFrames buffer 0x10 numKeyframes
    pure (some (.linear frames))
  else if ty = 2 then do
    let frames ← parseHermiteFrames buffer 0x10 numKeyframes
    pure (some (.hermite frames))
  else
    throw .UnsupportedTrackType

/-- Slot count per animation type in `parseMmad`: TRANSLATION (1) reads 2
slots, UNK_04 (4) reads 4, ROTATION (5) reads 1; any other type reads none. -/
def trackSlotCount (animationType : Nat) : Nat :=
  if animationType = 1 then 2
  else if animationType = 4 then 4
  else if animationType = 5 then 1
  else 0

/-- Track-slot loop of `parseMmad`: for each slot read a u16 offset; offset 0
leaves the slot absent, otherwise parse the track at that offset into the
entry's buffer. -/
def parseTrackSlots (version : Version) (buffer : List Nat) (tableIdx : Nat) : Nat → Except CmabError (List (Option AnimationTrack))
  | 0 => .ok []
  | n + 1 => do
      let trackOffs ← rd (getUint16LE buffer tableIdx)
      let slot ← if trackOffs = 0 then pure none else parseTrack version (buffer.drop trackOffs)
      let rest ← parseTrackSlots version buffer (tableIdx + 0x02) n
      .ok (slot :: rest)

/-- `parseMmad` from the source: verify the "mmad" signature, read the
animation type / material index / channel index, then read the track slots. -/
def parseMmad (version : Version) (buffer : List Nat) : Except CmabError AnimationEntry := do
  assertTag buffer 0x00 mmadSig
  let animationType ← rd (getUint32LE buffer 0x04)
  let materialIndex ← rd (getUint32LE buffer 0x08)
  let channelIndex ← rd (getUint32LE buffer 0x0C)
  let tracks ← parseTrackSlots version buffer 0x10 (trackSlotCount animationType)
  pure { animationType, materialIndex, channelIndex, tracks }

/-- Animation-entry table loop of `parse`: each table entry is a u32 offset
relative to the "mads" chunk at 0x34. -/
def parseEntries (version : Version) (buffer : List Nat) (tableIdx : Nat) : Nat → Except CmabError (List AnimationEntry)
  | 0 => .ok []
  | n + 1 => do
      let relOffs ← rd (getUint32LE buffer tableIdx)
      let entry ← parseMmad version (buffer.drop (0x34 + relOffs))
      let rest ← parseEntries version buffer (tableIdx + 0x04) n
      .ok (entry :: rest)

/-- `parse` from the source: validate the container header ("cmab"
signature, subversion, constants, "strt" string table, "mads" chunk), read
the duration, hardcode `LoopMode.REPEAT`, and parse every animation entry. -/
def parse (version : Version) (buffer : List Nat) : Except CmabError CMAB := do
  assertTag buffer 0x00 cmabSig
  let subversion ← rd (getUint32LE buffer 0x04)
  assertE (subversion == 0x01)
  let _size ← rd (getUint32LE buffer 0x08)
  let z ← rd (getUint32LE buffer 0x0C)
  assertE (z == 0x00)
  let c1 ← rd (getUint32LE buffer 0x10)
  assertE (c1 == 0x01)
  let c2 ← rd (getUint32LE buffer 0x14)
  assertE (c2 == 0x20)
  let strTableChunkOffs ← rd (getUint32LE buffer 0x18)
  assertTag buffer strTableChunkOffs strtSig
  let ct ← rd (getUint32LE buffer 0x20)
  assertE (ct == 0xFFFFFFFF)
  let duration ← rd (getUint32LE buffer 0x24)
  let cl ← rd (getUint32LE buffer 0x2C)
  assertE (cl == 0x14)
  assertTag buffer 0x34 madsSig
  let numAnimations ← rd (getUint32LE buffer 0x38)
  let animEntries ← parseEntries version buffer 0x3C numAnimations
  pure { duration := (duration : ℚ), loopMode := LoopMode.REPEAT, animEntries }

/-! Sampling. -/

def lerp (k0 k1 : AnimationKeyframeLinear) (t : ℚ) : ℚ :=
  k0.value + (k1.value - k0.value) * t

/-- Model of `Array.prototype.findIndex`, as an `Option Nat` index. -/
def findIdxN {α : Type} (p : α → Bool) : List α → Option Nat
  | [] => none
  | x :: xs => if p x then some 0 else (findIdxN p xs).map (· + 1)

/-- `Array.prototype.findIndex` proper: `-1` when no element matches. -/
def jsFindIndex {α : Type} (p : α → Bool) (xs : List α) : Int :=
  match findIdxN p xs with
  | some i => (i : Int)
  | none => -1

/-- JS array read at a possibly-negative index: negative or past-the-end
indices give `undefined` (`none`); a property access on that `undefined`
throws a TypeError, which callers propagate as `none`. -/
def jsIndex {α : Type} (xs : List α) (i : Int) : Option α :=
  if i < 0 then none else xs[i.toNat]?

/-- `sampleAnimationTrackLinear` from the source. Result is `none` exactly
when the JS code would throw a TypeError (indexing `frames[-1]` when the
frame precedes every keyframe time, or an empty frame list). -/
def sampleAnimationTrackLinear (frames : List AnimationKeyframeLinear) (frame : ℚ) : Option ℚ :=
  if frames.length = 1 then
    (jsIndex frames 0).map (fun k => k.value)
  else
    let idx1 : Int := jsFindIndex (fun k => decide (frame < k.time)) frames
    if idx1 < 0 then
      (jsIndex frames ((frames.length : Int) - 1)).map (fun k => k.value)
    else
      let idx0 : Int := idx1 - 1
      match jsIndex frames idx0, jsIndex frames idx1 with
      | some k0, some k1 => some (lerp k0 k1 ((frame - k0.time) / (k1.time - k0.time)))
      | _, _ => none

def cubicEval (cf0 cf1 cf2 cf3 t : ℚ) : ℚ :=
  ((cf0 * t + cf1) * t + cf2) * t + cf3

def hermiteInterpolate (k0 k1 : AnimationKeyframeHermite) (t : ℚ) : ℚ :=
  let length := k1.time - k0.time
  let p0 := k0.value
  let p1 := k1.value
  let s0 := k0.tangentOut * length
  let s1 := k1.tangentIn * length
  let cf0 := p0 * 2 + p1 * (-2) + s0 * 1 + s1 * 1
  let cf1 := p0 * (-3) + p1 * 3 + s0 * (-2) + s1 * (-1)
  let cf2 := p0 * 0 + p1 * 0 + s0 * 1 + s1 * 0
  let cf3 := p0 * 1 + p1 * 0 + s0 * 0 + s1 * 0
  cubicEval cf0 cf1 cf2 cf3 t

/-- `sampleAnimationTrackHermite` from the source, with its special case:
when the bracketing keyframes are exactly 1 frame apart, return the start
keyframe's value unmodified. -/
def sampleAnimationTrackHermite (frames : List AnimationKeyframeHermite) (frame : ℚ) : Option ℚ :=
  if frames.length = 1 then
    (jsIndex frames 0).map (fun k => k.value)
  else
    let idx1 : Int := jsFindIndex (fun k => decide (frame < k.time)) frames
    if idx1 < 0 then
      (jsIndex frames ((frames.length : Int) - 1)).map (fun k => k.value)
    else
      let idx0 : Int := idx1 - 1
      match jsIndex frames idx0, jsIndex frames idx1 with
      | some k0, some k1 =>
          if k1.time - k0.time = 1 then some k0.value
          else some (hermiteInterpolate k0 k1 ((frame - k0.time) / (k1.time - k0.time)))
      | _, _ => none

/-- `sampleAnimationTrack`: dispatch on the track variant. -/
def sampleAnimationTrack (track : AnimationTrack) (frame : ℚ) : Option ℚ :=
  match track with
  | .linear frames => sampleAnimationTrackLinear frames frame
  | .hermite frames => sampleAnimationTrackHermite frames frame

/-- Fuel-indexed model of the `while (frame > lastFrame) frame -= lastFrame`
loop in `getAnimFrame`'s REPEAT branch: `none` means the loop has not
finished within `fuel` iterations (the loop itself has no bound, so
termination is exactly `∃ fuel, ... = some _`). -/
def repeatWrap (lastFrame : ℚ) (frame : ℚ) : Nat → Option ℚ
  | 0 => none
  | fuel + 1 => if lastFrame < frame then repeatWrap lastFrame (frame - lastFrame) fuel else some frame

/-- `getAnimFrame` from the source: ONCE clamps the frame to the duration,
REPEAT wraps by repeated subtraction (fuel-indexed, see `repeatWrap`). -/
def getAnimFrame (anim : AnimationBase) (frame : ℚ) (fuel : Nat) : Option ℚ :=
  match anim.loopMode with
  | .ONCE => some (if anim.duration < frame then anim.duration else frame)
  | .REPEAT => repeatWrap anim.duration frame fuel

/-- A track-slot access `entry.tracks[i]` (sparse JS array: holes and
past-the-end reads are `undefined`). -/
def jsGetSlot (tracks : List (Option AnimationTrack)) (i : Nat) : Option AnimationTrack :=
  (tracks[i]?).join

/-- The per-slot sampling pattern of `calcTexMtx` / `calcMaterialColor`:
`tracks[i] !== undefined ? sampleAnimationTrack(tracks[i], animFrame) : dflt`. -/
def sampleTrackSlot (slot : Option AnimationTrack) (dflt : ℚ) (frame : ℚ) : Option ℚ :=
  match slot with
  | some track => sampleAnimationTrack track frame
  | none => some dflt

/-- The two translation scalars `(-tx, -ty)` written by
`TextureAnimator.calcTexMtx` for a TRANSLATION entry (missing slots default
to 0). -/
def calcTexMtxTranslation (cmab : CMAB) (entry : AnimationEntry) (time : ℚ) (fuel : Nat) : Option (ℚ × ℚ) := do
  let animFrame ← getAnimFrame cmab.toAnimationBase time fuel
  let tx ← sampleTrackSlot (jsGetSlot entry.tracks 0) 0 animFrame
  let ty ← sampleTrackSlot (jsGetSlot entry.tracks 1) 0 animFrame
  pure (-tx, -ty)

/-- The RGBA scalars written by `ColorAnimator.calcMaterialColor` (missing
slots default to 1). -/
def calcMaterialColor (cmab : CMAB) (entry : AnimationEntry) (time : ℚ) (fuel : Nat) : Option (ℚ × ℚ × ℚ × ℚ) := do
  let animFrame ← getAnimFrame cmab.toAnimationBase time fuel
  let r ← sampleTrackSlot (jsGetSlot entry.tracks 0) 1 animFrame
  let g ← sampleTrackSlot (jsGetSlot entry.tracks 1) 1 animFrame
  let b ← sampleTrackSlot (jsGetSlot entry.tracks 2) 1 animFrame
  let a ← sampleTrackSlot (jsGetSlot entry.tracks 3) 1 animFrame
  pure (r, g, b, a)

/-! Concrete fixtures used by witnesses and counterexamples. -/

/-- A Linear track with keyframes [(0,0),(10,10)] (spec §8's example track). -/
def linTrack10 : AnimationTrack := .linear [⟨0, 0⟩, ⟨10, 10⟩]

/-- A duration-10 REPEAT container base (the loop mode `parse` hardcodes). -/
def animRepeat10 : AnimationBase := ⟨10, .REPEAT⟩

/-- A duration-0 REPEAT container base (producible by `parse`: the duration
field of the binary is an arbitrary u32 and loop mode is always REPEAT). -/
def animRepeat0 : AnimationBase := ⟨0, .REPEAT⟩

/-- A duration-10 ONCE container base. -/
def animOnce10 : AnimationBase := ⟨10, .ONCE⟩

/-! Lemmas about the REPEAT wrap loop. -/

lemma repeatWrap_succ (d f : ℚ) (n : Nat) :
    repeatWrap d f (n + 1) = if d < f then repeatWrap d (f - d) n else some f := rfl

lemma repeatWrap_zero_none (f : ℚ) (hf : 0 < f) : ∀ n, repeatWrap 0 f n = none := by
  intro n
  induction n with
  | zero => rfl
  | succ n ih => rw [repeatWrap_succ, if_pos hf, sub_zero]; exact ih

lemma repeatWrap_bounded (d : ℚ) :
    ∀ (N : Nat) (f : ℚ), f ≤ d + N * d → (repeatWrap d f (N + 1)).isSome := by
  intro N
  induction N with
  | zero =>
      intro f hf
      rw [repeatWrap_succ, if_neg (by push_cast at hf; linarith)]
      rfl
  | succ N ih =>
      intro f hf
      rw [repeatWrap_succ]
      split_ifs with h
      · exact ih (f - d) (by push_cast at hf ⊢; linarith)
      · rfl

lemma repeatWrap_terminates (d : ℚ) (hd : 0 < d) (f : ℚ) :
    ∃ n, (repeatWrap d f n).isSome := by
  obtain ⟨N, hN⟩ := exists_nat_gt (f / d)
  have hfN : f < N * d := by
    have := (div_lt_iff₀ hd).mp hN
    linarith
  exact ⟨N + 1, repeatWrap_bounded d N f (by nlinarith)⟩

/-- C9: with loop mode Once, every input frame at or past the duration is
clamped to the duration by frame normalization, so sampling any track at
such a frame equals sampling it exactly at the duration. -/
theorem C9_once_clamp (anim : AnimationBase) (track : AnimationTrack) (f : ℚ)
    (fuel1 fuel2 : Nat) (hmode : anim.loopMode = LoopMode.ONCE)
    (hf : anim.duration ≤ f) :
    Option.map (sampleAnimationTrack track) (getAnimFrame anim f fuel1) =
      Option.map (sampleAnimationTrack track) (getAnimFrame anim anim.duration fuel2) := by
  have h1 : (if anim.duration < f then anim.duration else f) = anim.duration := by
    split_ifs with h
    · rfl
    · linarith
  have h2 : (if anim.duration < anim.duration then anim.duration else anim.duration) =
      anim.duration := by simp
  simp only [getAnimFrame, hmode, h1, h2]

/-- Witness for C9 at a concrete input: a duration-10 Once container sampled
at frame 25 equals the sample at frame 10. -/
theorem C9_once_clamp_witness :
    animOnce10.loopMode = LoopMode.ONCE ∧ animOnce10.duration ≤ 25 ∧
    Option.map (sampleAnimationTrack linTrack10) (getAnimFrame animOnce10 25 0) =
      Option.map (sampleAnimationTrack linTrack10) (getAnimFrame animOnce10 animOnce10.duration 0) :=
  ⟨rfl, by norm_num [animOnce10], C9_once_clamp animOnce10 linTrack10 25 0 0 rfl (by norm_num [animOnce10])⟩

/-- Counterexample to C2 as stated: at k = 0 the claim fails. For the
duration-10 REPEAT container, frame normalization sends frame 10 + 0 to 10
(not to 0), and sampling the track [(0,0),(10,10)] at the two frames gives
10 and 0 respectively. -/
theorem C2_repeat_k0_counterexample :
    animRepeat10.loopMode = LoopMode.REPEAT ∧ 0 < animRepeat10.duration ∧
    (0 : ℚ) ≤ 0 ∧ (0 : ℚ) < animRepeat10.duration ∧
    getAnimFrame animRepeat10 (animRepeat10.duration + 0) 5 = some 10 ∧
    getAnimFrame animRepeat10 0 5 = some 0 ∧
    Option.map (sampleAnimationTrack linTrack10) (getAnimFrame animRepeat10 (animRepeat10.duration + 0) 5) ≠
      Option.map (sampleAnimationTrack linTrack10) (getAnimFrame animRepeat10 0 5) := by
  have e1 : getAnimFrame animRepeat10 (animRepeat10.duration + 0) 5 = some 10 := by
    norm_num [getAnimFrame, animRepeat10, repeatWrap]
  have e2 : getAnimFrame animRepeat10 0 5 = some 0 := by
    norm_num [getAnimFrame, animRepeat10, repeatWrap]
  have s1 : sampleAnimationTrack linTrack10 10 = some 10 := by
    norm_num [sampleAnimationTrack, linTrack10, sampleAnimationTrackLinear, findIdxN,
      jsFindIndex, jsIndex]
  have s2 : sampleAnimationTrack linTrack10 0 = some 0 := by
    norm_num [sampleAnimationTrack, linTrack10, sampleAnimationTrackLinear, findIdxN,
      jsFindIndex, jsIndex, lerp]
  refine ⟨rfl, by norm_num [animRepeat10], le_refl 0, by norm_num [animRepeat10], e1, e2, ?_⟩
  rw [e1, e2, Option.map_some', Option.map_some', s1, s2]
  intro h
  have := Option.some.inj h
  norm_num at this

/-- C2 amended: for a REPEAT container of duration d > 0 and every k
strictly between 0 and d (the claim's k = 0 endpoint is excluded: there
normalization yields d, not 0), frame normalization sends d + k to k, so
sampling any track at frame d + k equals sampling it at frame k. -/
theorem C2_repeat_wrap_amended (anim : AnimationBase) (track : AnimationTrack)
    (k : ℚ) (fuel1 fuel2 : Nat) (hmode : anim.loopMode = LoopMode.REPEAT)
    (_hdur : 0 < anim.duration) (hk0 : 0 < k) (hk : k < anim.duration)
    (hf1 : 2 ≤ fuel1) (hf2 : 1 ≤ fuel2) :
    Option.map (sampleAnimationTrack track) (getAnimFrame anim (anim.duration + k) fuel1) =
      Option.map (sampleAnimationTrack track) (getAnimFrame anim k fuel2) := by
  obtain ⟨m, rfl⟩ : ∃ m, fuel1 = m + 2 := ⟨fuel1 - 2, by omega⟩
  obtain ⟨n, rfl⟩ : ∃ n, fuel2 = n + 1 := ⟨fuel2 - 1, by omega⟩
  have e1 : repeatWrap anim.duration (anim.duration + k) (m + 2) = some k := by
    rw [repeatWrap_succ, if_pos (by linarith), add_sub_cancel_left, repeatWrap_succ,
      if_neg (by linarith)]
  have e2 : repeatWrap anim.duration k (n + 1) = some k := by
    rw [repeatWrap_succ, if_neg (by linarith)]
  simp only [getAnimFrame, hmode, e1, e2]

/-- Witness for the amended C2: duration 10, k = 5, sampling at 15 equals
sampling at 5. -/
theorem C2_repeat_wrap_witness :
    animRepeat10.loopMode = LoopMode.REPEAT ∧ 0 < animRepeat10.duration ∧
    (0 : ℚ) < 5 ∧ (5 : ℚ) < animRepeat10.duration ∧
    Option.map (sampleAnimationTrack linTrack10) (getAnimFrame animRepeat10 (animRepeat10.duration + 5) 2) =
      Option.map (sampleAnimationTrack linTrack10) (getAnimFrame animRepeat10 5 1) :=
  ⟨rfl, by norm_num [animRepeat10], by norm_num, by norm_num [animRepeat10],
    C2_repeat_wrap_amended animRepeat10 linTrack10 5 2 1 rfl (by norm_num [animRepeat10])
      (by norm_num) (by norm_num [animRepeat10]) (le_refl 2) (le_refl 1)⟩

/-- Counterexample to C4 as stated: for the duration-0 REPEAT container
(producible by `parse`, which hardcodes REPEAT and reads an arbitrary u32
duration) the normalization loop `while (frame > lastFrame) frame -= lastFrame`
never terminates at input frame 1: no amount of fuel produces a result. -/
theorem C4_zero_duration_diverges :
    ¬ ∃ fuel, (getAnimFrame animRepeat0 1 fuel).isSome := by
  rintro ⟨fuel, hfuel⟩
  have h0 : repeatWrap animRepeat0.duration 1 fuel = none := by
    have : animRepeat0.duration = 0 := rfl
    rw [this]
    exact repeatWrap_zero_none 1 one_pos fuel
  rw [getAnimFrame] at hfuel
  have hmode : animRepeat0.loopMode = LoopMode.REPEAT := rfl
  rw [hmode] at hfuel
  simp only [h0, Option.isSome_none] at hfuel
  exact Bool.false_ne_true hfuel

/-- C4 amended: frame normalization terminates for every container whose
duration is positive (for zero duration, REPEAT mode at any frame above 0
loops forever, as the counterexample shows): some fuel suffices. -/
theorem C4_termination_amended (anim : AnimationBase) (f : ℚ)
    (hd : 0 < anim.duration) :
    ∃ fuel, (getAnimFrame anim f fuel).isSome := by
  cases hmode : anim.loopMode with
  | ONCE => exact ⟨0, by simp [getAnimFrame, hmode]⟩
  | REPEAT =>
      obtain ⟨n, hn⟩ := repeatWrap_terminates anim.duration hd f
      exact ⟨n, by simpa [getAnimFrame, hmode] using hn⟩

/-- Witness for the amended C4: the duration-10 REPEAT container terminates
at input frame 25. -/
theorem C4_termination_witness :
    0 < animRepeat10.duration ∧ ∃ fuel, (getAnimFrame animRepeat10 25 fuel).isSome :=
  ⟨by norm_num [animRepeat10], C4_termination_amended animRepeat10 25 (by norm_num [animRepeat10])⟩

/-! Track-parsing claims. -/

/-- An Ocarina-layout track buffer declaring type 3 and keyframe count 0. -/
def zeroCountTrackBuf : List Nat :=
  [0x03, 0, 0, 0, 0x00, 0, 0, 0, 0, 0, 0, 0, 0, 0, 0, 0]

/-- An Ocarina-layout track buffer declaring type 3 and keyframe count 1. -/
def type3TrackBuf : List Nat :=
  [0x03, 0, 0, 0, 0x01, 0, 0, 0, 0, 0, 0, 0, 0, 0, 0, 0]

/-- An Ocarina-layout Hermite track buffer with one keyframe whose
tangent-in bytes are 00 00 80 3F (float 1.0) and tangent-out bytes are
00 00 80 BF (float -1.0). -/
def c1TrackBuf : List Nat :=
  [0x02, 0, 0, 0, 0x01, 0, 0, 0, 0, 0, 0, 0, 0, 0, 0, 0,
   0, 0, 0, 0, 0, 0, 0, 0, 0x00, 0x00, 0x80, 0x3F, 0x00, 0x00, 0x80, 0xBF]

/-- C10: a zero keyframe count makes `parseTrack` return the no-track
sentinel before the type tag is ever validated, whatever the tag's value. -/
theorem C10_zero_count_skips_type_check (version : Version) (buf : List Nat) (t : Nat)
    (h : parseTrackHeader version buf = some (t, 0)) :
    parseTrack version buf = .ok none := by
  simp [parseTrack, h, rd, Bind.bind, Except.bind, Pure.pure, Except.pure]

/-- Witness for C10: the type-3 zero-count buffer parses as an absent track
instead of raising UnsupportedTrackType. -/
theorem C10_zero_count_skips_type_check_witness :
    parseTrackHeader Version.Ocarina zeroCountTrackBuf = some (3, 0) ∧
    parseTrack Version.Ocarina zeroCountTrackBuf = .ok none :=
  ⟨by decide, C10_zero_count_skips_type_check Version.Ocarina zeroCountTrackBuf 3 (by decide)⟩

/-- Counterexample to C5 as stated: a track buffer whose declared type field
is 3 (outside Linear = 1, Hermite = 2) but whose keyframe count is 0 parses
successfully as an absent track — `parseTrack` does not fail. -/
theorem C5_zero_count_counterexample :
    parseTrackHeader Version.Ocarina zeroCountTrackBuf = some (3, 0) ∧
    (3 : Nat) ≠ 1 ∧ (3 : Nat) ≠ 2 ∧
    parseTrack Version.Ocarina zeroCountTrackBuf = .ok none :=
  ⟨by decide, by decide, by decide, rfl⟩

/-- C5 amended: for every version and track buffer whose header reads
succeed with a NONZERO keyframe count, a declared type outside
{Linear = 1, Hermite = 2} makes `parseTrack` fail with
`UnsupportedTrackType` (a zero count bypasses the type check, see the
counterexample). -/
theorem C5_bad_type_error_amended (version : Version) (buf : List Nat) (t n : Nat)
    (h : parseTrackHeader version buf = some (t, n)) (hn : n ≠ 0)
    (h1 : t ≠ 1) (h2 : t ≠ 2) :
    parseTrack version buf = .error .UnsupportedTrackType := by
  simp [parseTrack, h, rd, hn, h1, h2, Bind.bind, Except.bind, throw, throwThe,
    MonadExceptOf.throw]

/-- Witness for the amended C5: the type-3 count-1 buffer fails with
`UnsupportedTrackType`. -/
theorem C5_bad_type_error_witness :
    parseTrackHeader Version.Ocarina type3TrackBuf = some (3, 1) ∧
    parseTrack Version.Ocarina type3TrackBuf = .error .UnsupportedTrackType :=
  ⟨by decide, C5_bad_type_error_amended Version.Ocarina type3TrackBuf 3 1 (by decide)
    (by decide) (by decide) (by decide)⟩

/-- C1, code bug: the Hermite keyframe's tangent-in/tangent-out fields are
read with `getUint32`, not `getFloat32` (src/oot3d/cmab.ts lines 112-113).
On a keyframe whose tangent-in bytes are the float 1.0 (bit pattern
0x3F800000) and tangent-out bytes the float -1.0 (0xBF800000), the parsed
tangents are the integers 1065353216 and 3212836864 — not the IEEE-754
values 1 and -1 that the spec (§3, §4.2, §6) prescribes. -/
theorem C1_tangents_read_as_uint32 :
    getUint32LE c1TrackBuf 0x18 = some 0x3F800000 ∧
    getUint32LE c1TrackBuf 0x1C = some 0xBF800000 ∧
    f32FromBits 0x3F800000 = 1 ∧
    f32FromBits 0xBF800000 = -1 ∧
    parseTrack Version.Ocarina c1TrackBuf =
      .ok (some (.hermite [AnimationKeyframeHermite.mk ((0 : Nat) : ℚ) (f32FromBits 0)
        ((1065353216 : Nat) : ℚ) ((3212836864 : Nat) : ℚ)])) ∧
    ((1065353216 : Nat) : ℚ) ≠ 1 ∧ ((3212836864 : Nat) : ℚ) ≠ -1 :=
  ⟨by decide, by decide, by norm_num [f32FromBits], by norm_num [f32FromBits], rfl,
    by norm_num, by norm_num⟩

/-! Interpolation claims: bracketing behavior of the JS findIndex scan. -/

/-- A successful findIndex result is a valid index. -/
lemma findIdxN_some_lt {α : Type} (p : α → Bool) :
    ∀ (xs : List α) (i : Nat), findIdxN p xs = some i → i < xs.length := by
  intro xs
  induction xs with
  | nil => intro i h; simp [findIdxN] at h
  | cons x xs ih =>
      intro i h
      simp only [findIdxN] at h
      split_ifs at h with hp
      · cases h; simp
      · cases hfx : findIdxN p xs with
        | none => rw [hfx] at h; simp at h
        | some j =>
            rw [hfx] at h
            simp only [Option.map_some'] at h
            cases h
            have := ih j hfx
            simp only [List.length_cons]
            omega

/-- findIndex returns index i when the predicate holds at i and fails at
every earlier index. -/
lemma findIdxN_eq_some_of {α : Type} (p : α → Bool) :
    ∀ (xs : List α) (i : Nat) (y : α),
      xs[i]? = some y → p y = true →
      (∀ j x, j < i → xs[j]? = some x → p x = false) →
      findIdxN p xs = some i := by
  intro xs
  induction xs with
  | nil => intro i y hy _ _; simp at hy
  | cons a as ih =>
      intro i y hy hpy hlt
      cases i with
      | zero =>
          rw [List.getElem?_cons_zero] at hy
          cases hy
          simp [findIdxN, hpy]
      | succ i =>
          have hpa : p a = false := hlt 0 a (Nat.succ_pos i) (by simp)
          have hrec : findIdxN p as = some i :=
            ih i y (by simpa using hy) hpy
              (fun j x hj hx => hlt (j + 1) x (by omega) (by simpa using hx))
          simp [findIdxN, hpa, hrec]

/-- C7: on a Linear track with strictly increasing keyframe times, a frame
bracketed by consecutive keyframes k0 at index i and k1 at index i+1
(k0.time ≤ f < k1.time) samples to the standard weighted average
k0.value + (k1.value - k0.value) * (f - k0.time) / (k1.time - k0.time). -/
theorem C7_linear_interpolation (frames : List AnimationKeyframeLinear) (i : Nat)
    (k0 k1 : AnimationKeyframeLinear) (f : ℚ)
    (hsorted : frames.Pairwise (fun a b => a.time < b.time))
    (h0 : frames[i]? = some k0) (h1 : frames[i + 1]? = some k1)
    (hl : k0.time ≤ f) (hr : f < k1.time) :
    sampleAnimationTrackLinear frames f =
      some (k0.value + (k1.value - k0.value) * ((f - k0.time) / (k1.time - k0.time))) := by
  have hi1 : i + 1 < frames.length := by
    rcases List.getElem?_eq_some.mp h1 with ⟨h, _⟩
    exact h
  have hi0 : i < frames.length := by omega
  have hfind : findIdxN (fun k => decide (f < k.time)) frames = some (i + 1) := by
    apply findIdxN_eq_some_of _ _ _ k1 h1 (by simpa using hr)
    intro j x hj hx
    have hji : j ≤ i := by omega
    rcases List.getElem?_eq_some.mp hx with ⟨hjlen, hxe⟩
    rcases eq_or_lt_of_le hji with rfl | hjlt
    · rw [h0] at hx
      cases hx
      simpa using not_lt.mpr hl
    · have hrel := (List.pairwise_iff_getElem.mp hsorted) j i hjlen hi0 hjlt
      have hk0e : frames[i] = k0 := by
        rcases List.getElem?_eq_some.mp h0 with ⟨_, he⟩
        exact he
      rw [hxe, hk0e] at hrel
      simpa using not_lt.mpr (le_of_lt (lt_of_lt_of_le hrel hl))
  have hlen : frames.length ≠ 1 := by omega
  rw [sampleAnimationTrackLinear]
  rw [if_neg hlen]
  simp only [jsFindIndex, hfind]
  rw [if_neg (by omega)]
  have j0 : jsIndex frames (((i + 1 : Nat) : Int) - 1) = some k0 := by
    have he : ((i + 1 : Nat) : Int) - 1 = (i : Int) := by push_cast; ring
    rw [he, jsIndex, if_neg (by omega)]
    simpa using h0
  have j1 : jsIndex frames ((i + 1 : Nat) : Int) = some k1 := by
    rw [jsIndex, if_neg (by omega)]
    simpa using h1
  rw [j0, j1]
  simp [lerp]

/-- C8: on a Hermite track with strictly increasing keyframe times, when the
two keyframes bracketing the frame are exactly 1 frame apart the sample is
the earlier keyframe's value, bypassing the cubic interpolation. -/
theorem C8_hermite_gap_one (frames : List AnimationKeyframeHermite) (i : Nat)
    (k0 k1 : AnimationKeyframeHermite) (f : ℚ)
    (hsorted : frames.Pairwise (fun a b => a.time < b.time))
    (h0 : frames[i]? = some k0) (h1 : frames[i + 1]? = some k1)
    (hgap : k1.time - k0.time = 1)
    (hl : k0.time ≤ f) (hr : f < k1.time) :
    sampleAnimationTrackHermite frames f = some k0.value := by
  have hi1 : i + 1 < frames.length := by
    rcases List.getElem?_eq_some.mp h1 with ⟨h, _⟩
    exact h
  have hi0 : i < frames.length := by omega
  have hfind : findIdxN (fun k => decide (f < k.time)) frames = some (i + 1) := by
    apply findIdxN_eq_some_of _ _ _ k1 h1 (by simpa using hr)
    intro j x hj hx
    have hji : j ≤ i := by omega
    rcases List.getElem?_eq_some.mp hx with ⟨hjlen, hxe⟩
    rcases eq_or_lt_of_le hji with rfl | hjlt
    · rw [h0] at hx
      cases hx
      simpa using not_lt.mpr hl
    · have hrel := (List.pairwise_iff_getElem.mp hsorted) j i hjlen hi0 hjlt
      have hk0e : frames[i] = k0 := by
        rcases List.getElem?_eq_some.mp h0 with ⟨_, he⟩
        exact he
      rw [hxe, hk0e] at hrel
      simpa using not_lt.mpr (le_of_lt (lt_of_lt_of_le hrel hl))
  have hlen : frames.length ≠ 1 := by omega
  rw [sampleAnimationTrackHermite]
  rw [if_neg hlen]
  simp only [jsFindIndex, hfind]
  rw [if_neg (by omega)]
  have j0 : jsIndex frames (((i + 1 : Nat) : Int) - 1) = some k0 := by
    have he : ((i + 1 : Nat) : Int) - 1 = (i : Int) := by push_cast; ring
    rw [he, jsIndex, if_neg (by omega)]
    simpa using h0
  have j1 : jsIndex frames ((i + 1 : Nat) : Int) = some k1 := by
    rw [jsIndex, if_neg (by omega)]
    simpa using h1
  rw [j0, j1]
  simp [hgap]

/-- Witness for C7: the track [(0,0),(10,10)] sampled at frame 5 returns 5. -/
theorem C7_linear_interpolation_witness : sampleAnimationTrackLinear [⟨0, 0⟩, ⟨10, 10⟩] 5 = some 5 := by
  have h := C7_linear_interpolation [⟨0, 0⟩, ⟨10, 10⟩] 0 ⟨0, 0⟩ ⟨10, 10⟩ 5
    (by norm_num [List.pairwise_cons]) rfl rfl (by norm_num) (by norm_num)
  rw [h]
  norm_num

/-- Witness for C8: a Hermite track with keyframes 1 frame apart (times 0
and 1, values 3 and 9, nonzero tangents) sampled at frame 1/2 returns 3. -/
theorem C8_hermite_gap_one_witness : sampleAnimationTrackHermite [⟨0, 3, 5, 6⟩, ⟨1, 9, 7, 8⟩] (1/2) = some 3 := by
  have h := C8_hermite_gap_one [⟨0, 3, 5, 6⟩, ⟨1, 9, 7, 8⟩] 0 ⟨0, 3, 5, 6⟩ ⟨1, 9, 7, 8⟩ (1/2)
    (by norm_num [List.pairwise_cons]) rfl rfl (by norm_num) (by norm_num) (by norm_num)
  rw [h]

/-! Sampling-safety claim. -/

/-- The keyframe times of a track, in file order. -/
def trackTimes : AnimationTrack → List ℚ
  | .linear frames => frames.map (fun k => k.time)
  | .hermite frames => frames.map (fun k => k.time)

/-- The claim's well-formedness for a present track: at least one keyframe
(as `parseTrack` guarantees) with strictly increasing times. -/
def trackWF (track : AnimationTrack) : Prop :=
  trackTimes track ≠ [] ∧ (trackTimes track).Pairwise (· < ·)

/-- A well-formed track whose first keyframe time is positive: sampling it
below that time crashes (JS indexes `frames[-1]` and dereferences
`undefined`). -/
def lateTrack : AnimationTrack := .linear [⟨1, 5⟩, ⟨2, 7⟩]

lemma sampleAnimationTrackLinear_isSome (k : AnimationKeyframeLinear)
    (rest : List AnimationKeyframeLinear) (f : ℚ) (hf : k.time ≤ f) :
    (sampleAnimationTrackLinear (k :: rest) f).isSome := by
  by_cases hlen : (k :: rest).length = 1
  · rw [sampleAnimationTrackLinear, if_pos hlen]
    simp [jsIndex]
  · rw [sampleAnimationTrackLinear, if_neg hlen]
    have hp : (decide (f < k.time)) = false := by simp [not_lt.mpr hf]
    cases hfind : findIdxN (fun kk => decide (f < kk.time)) (k :: rest) with
    | none =>
        simp only [jsFindIndex, hfind]
        rw [if_pos (by norm_num)]
        have hpos : 0 < (k :: rest).length := by simp
        rw [jsIndex, if_neg (by omega)]
        have htn : (((k :: rest).length : Int) - 1).toNat = (k :: rest).length - 1 := by omega
        rw [htn, List.getElem?_eq_getElem (by omega)]
        simp
    | some idx =>
        have hlt := findIdxN_some_lt _ _ _ hfind
        have hidx0 : idx ≠ 0 := by
          intro h
          subst h
          rw [findIdxN, if_neg (by simp [hp])] at hfind
          rcases hmap : findIdxN (fun kk => decide (f < kk.time)) rest with _ | j
          · rw [hmap] at hfind
            simp at hfind
          · rw [hmap] at hfind
            simp at hfind
        simp only [jsFindIndex, hfind]
        rw [if_neg (by omega)]
        rw [jsIndex, if_neg (by omega)]
        rw [jsIndex, if_neg (by omega)]
        have ht1 : ((idx : Int)).toNat = idx := by omega
        have ht0 : ((idx : Int) - 1).toNat = idx - 1 := by omega
        rw [ht1, ht0]
        rw [List.getElem?_eq_getElem (by omega), List.getElem?_eq_getElem hlt]
        simp

lemma sampleAnimationTrackHermite_isSome (k : AnimationKeyframeHermite)
    (rest : List AnimationKeyframeHermite) (f : ℚ) (hf : k.time ≤ f) :
    (sampleAnimationTrackHermite (k :: rest) f).isSome := by
  by_cases hlen : (k :: rest).length = 1
  · rw [sampleAnimationTrackHermite, if_pos hlen]
    simp [jsIndex]
  · rw [sampleAnimationTrackHermite, if_neg hlen]
    have hp : (decide (f < k.time)) = false := by simp [not_lt.mpr hf]
    cases hfind : findIdxN (fun kk => decide (f < kk.time)) (k :: rest) with
    | none =>
        simp only [jsFindIndex, hfind]
        rw [if_pos (by norm_num)]
        have hpos : 0 < (k :: rest).length := by simp
        rw [jsIndex, if_neg (by omega)]
        have htn : (((k :: rest).length : Int) - 1).toNat = (k :: rest).length - 1 := by omega
        rw [htn, List.getElem?_eq_getElem (by omega)]
        simp
    | some idx =>
        have hlt := findIdxN_some_lt _ _ _ hfind
        have hidx0 : idx ≠ 0 := by
          intro h
          subst h
          rw [findIdxN, if_neg (by simp [hp])] at hfind
          rcases hmap : findIdxN (fun kk => decide (f < kk.time)) rest with _ | j
          · rw [hmap] at hfind
            simp at hfind
          · rw [hmap] at hfind
            simp at hfind
        simp only [jsFindIndex, hfind]
        rw [if_neg (by omega)]
        rw [jsIndex, if_neg (by omega)]
        rw [jsIndex, if_neg (by omega)]
        have ht1 : ((idx : Int)).toNat = idx := by omega
        have ht0 : ((idx : Int) - 1).toNat = idx - 1 := by omega
        rw [ht1, ht0]
        rw [List.getElem?_eq_getElem (by omega), List.getElem?_eq_getElem hlt]
        rcases eq_or_ne ((k :: rest)[idx].time - (k :: rest)[idx - 1].time) 1 with hgap | hgap <;>
          simp [hgap]

/-- C3 amended: per-slot sampling of a well-formed track never fails
PROVIDED the (normalized) frame is at least the track's first keyframe
time; an absent slot yields the caller's default. The proviso is forced by
the counterexample: a frame below the first keyframe time makes the JS code
index `frames[-1]` and crash. -/
theorem C3_sampling_total_amended (slot : Option AnimationTrack) (dflt f : ℚ)
    (hwf : ∀ tr, slot = some tr → trackWF tr)
    (hfirst : ∀ tr t0, slot = some tr → (trackTimes tr).head? = some t0 → t0 ≤ f) :
    (sampleTrackSlot slot dflt f).isSome ∧ sampleTrackSlot none dflt f = some dflt := by
  refine ⟨?_, rfl⟩
  cases slot with
  | none => rfl
  | some tr =>
      cases tr with
      | linear frames =>
          cases frames with
          | nil => exact absurd (by simp [trackTimes] : trackTimes (.linear []) = []) (hwf _ rfl).1
          | cons k rest =>
              have hle : k.time ≤ f := hfirst _ k.time rfl (by simp [trackTimes])
              simpa [sampleTrackSlot, sampleAnimationTrack] using
                sampleAnimationTrackLinear_isSome k rest f hle
      | hermite frames =>
          cases frames with
          | nil => exact absurd (by simp [trackTimes] : trackTimes (.hermite []) = []) (hwf _ rfl).1
          | cons k rest =>
              have hle : k.time ≤ f := hfirst _ k.time rfl (by simp [trackTimes])
              simpa [sampleTrackSlot, sampleAnimationTrack] using
                sampleAnimationTrackHermite_isSome k rest f hle

/-- Counterexample to C3 as stated: `lateTrack` is well-formed (two
keyframes, strictly increasing times 1 < 2) and frame 0 is a legitimate
normalized frame for the duration-10 REPEAT container, yet sampling the
track at frame 0 fails (the source dereferences `frames[-1]`, a TypeError,
modelled as `none`). -/
theorem C3_sampling_crash_counterexample :
    trackWF lateTrack ∧ getAnimFrame animRepeat10 0 1 = some 0 ∧
    sampleTrackSlot (some lateTrack) 0 0 = none := by
  refine ⟨⟨by simp [lateTrack, trackTimes], by norm_num [lateTrack, trackTimes, List.pairwise_cons]⟩, ?_, ?_⟩
  · norm_num [getAnimFrame, animRepeat10, repeatWrap]
  · norm_num [sampleTrackSlot, sampleAnimationTrack, lateTrack, sampleAnimationTrackLinear,
      findIdxN, jsFindIndex, jsIndex]

/-- Witness for the amended C3: sampling the track [(0,0),(10,10)] at frame
5 succeeds, and an absent slot yields the default 0. -/
theorem C3_sampling_total_witness :
    (sampleTrackSlot (some linTrack10) 0 5).isSome ∧ sampleTrackSlot none 0 5 = some 0 :=
  C3_sampling_total_amended (some linTrack10) 0 5
    (fun tr h => by
      injection h with h
      subst h
      exact ⟨by simp [linTrack10, trackTimes], by norm_num [linTrack10, trackTimes, List.pairwise_cons]⟩)
    (fun tr t0 h h0 => by
      injection h with h
      subst h
      simp [linTrack10, trackTimes] at h0
      rw [← h0]
      norm_num)

/-! Container-parse claim: which errors `parse` can produce. -/

/-- A complete container buffer (valid "cmab" header, "strt" table, one
"mads" entry) whose single "mmad" entry references a track with declared
type 3 and keyframe count 1 at entry-relative offset 0x20. -/
def c6buf : List Nat :=
  [0x63,0x6D,0x61,0x62, 0x01,0,0,0, 0x74,0,0,0, 0,0,0,0,
   0x01,0,0,0, 0x20,0,0,0, 0x60,0,0,0, 0,0,0,0,
   0xFF,0xFF,0xFF,0xFF, 0x0A,0,0,0, 0,0,0,0, 0x14,0,0,0,
   0,0,0,0, 0x6D,0x61,0x64,0x73, 0x01,0,0,0, 0x10,0,0,0,
   0,0,0,0, 0x6D,0x6D,0x61,0x64, 0x01,0,0,0, 0,0,0,0,
   0,0,0,0, 0x20,0x00,0x00,0x00, 0,0,0,0, 0,0,0,0,
   0x73,0x74,0x72,0x74, 0x03,0,0,0, 0x01,0,0,0, 0,0,0,0,
   0,0,0,0]

/-- A buffer whose first four bytes are not the "cmab" signature. -/
def badSigBuf : List Nat := [0, 0, 0, 0, 1, 0]

/-- Counterexample to C6 as stated: `parse` on `c6buf` fails with
`UnsupportedTrackType` — neither a container nor a `MalformedData` error, so
`MalformedData` is not the only typed failure of `parse`. -/
theorem C6_unsupported_type_counterexample :
    parse Version.Ocarina c6buf = .error .UnsupportedTrackType := rfl

lemma bindError {α β : Type} {x : Except CmabError α} {f : α → Except CmabError β} {e : CmabError}
    (h : x >>= f = .error e) : x = .error e ∨ ∃ a, x = .ok a ∧ f a = .error e := by
  cases x with
  | error e2 => exact Or.inl (by simpa [Bind.bind, Except.bind] using h)
  | ok a => exact Or.inr ⟨a, rfl, by simpa [Bind.bind, Except.bind] using h⟩

lemma rd_error {α : Type} {o : Option α} {e : CmabError} (h : rd o = .error e) :
    e = .MalformedData := by
  cases o with
  | none => cases h; rfl
  | some a => exact Except.noConfusion h

lemma assertE_error {b : Bool} {e : CmabError} (h : assertE b = .error e) :
    e = .MalformedData := by
  cases b with
  | true => exact Except.noConfusion h
  | false => cases h; rfl

lemma assertTag_error {buf : List Nat} {offs : Nat} {sig : List Nat} {e : CmabError}
    (h : assertTag buf offs sig = .error e) : e = .MalformedData := by
  rw [assertTag] at h
  rcases htag : readTag buf offs 4 with _ | t
  · rw [htag] at h
    cases h
    rfl
  · rw [htag] at h
    dsimp only at h
    split_ifs at h
    cases h
    rfl

lemma parseLinearFrames_error (buffer : List Nat) :
    ∀ (n idx : Nat) (e : CmabError), parseLinearFrames buffer idx n = .error e →
      e = .MalformedData := by
  intro n
  induction n with
  | zero => intro idx e h; exact Except.noConfusion h
  | succ n ih =>
      intro idx e h
      rw [parseLinearFrames] at h
      rcases bindError h with h | ⟨a, _, h⟩
      · exact rd_error h
      rcases bindError h with h | ⟨b, _, h⟩
      · exact rd_error h
      rcases bindError h with h | ⟨c, _, h⟩
      · exact ih _ _ h
      · exact Except.noConfusion h

lemma parseHermiteFrames_error (buffer : List Nat) :
    ∀ (n idx : Nat) (e : CmabError), parseHermiteFrames buffer idx n = .error e →
      e = .MalformedData := by
  intro n
  induction n with
  | zero => intro idx e h; exact Except.noConfusion h
  | succ n ih =>
      intro idx e h
      rw [parseHermiteFrames] at h
      rcases bindError h with h | ⟨a, _, h⟩
      · exact rd_error h
      rcases bindError h with h | ⟨b, _, h⟩
      · exact rd_error h
      rcases bindError h with h | ⟨c, _, h⟩
      · exact rd_error h
      rcases bindError h with h | ⟨d, _, h⟩
      · exact rd_error h
      rcases bindError h with h | ⟨r, _, h⟩
      · exact ih _ _ h
      · exact Except.noConfusion h

lemma parseTrack_error {version : Version} {buf : List Nat} {e : CmabError}
    (h : parseTrack version buf = .error e) :
    e = .MalformedData ∨ e = .UnsupportedTrackType := by
  rw [parseTrack] at h
  rcases bindError h with h | ⟨hdr, _, h⟩
  · exact Or.inl (rd_error h)
  dsimp only at h
  split_ifs at h
  · exact Except.noConfusion h
  · rcases hmap : parseLinearFrames buf 0x10 hdr.2 with e2 | fr
    · rw [hmap] at h
      have he : e2 = e := by simpa [Functor.map, Except.map] using h
      exact Or.inl (parseLinearFrames_error buf _ _ _ (he ▸ hmap))
    · rw [hmap] at h
      simp [Functor.map, Except.map] at h
  · rcases hmap : parseHermiteFrames buf 0x10 hdr.2 with e2 | fr
    · rw [hmap] at h
      have he : e2 = e := by simpa [Functor.map, Except.map] using h
      exact Or.inl (parseHermiteFrames_error buf _ _ _ (he ▸ hmap))
    · rw [hmap] at h
      simp [Functor.map, Except.map] at h
  · cases h
    exact Or.inr rfl

lemma parseTrackSlots_error (version : Version) (buffer : List Nat) :
    ∀ (n tableIdx : Nat) (e : CmabError), parseTrackSlots version buffer tableIdx n = .error e →
      e = .MalformedData ∨ e = .UnsupportedTrackType := by
  intro n
  induction n with
  | zero => intro tableIdx e h; exact Except.noConfusion h
  | succ n ih =>
      intro tableIdx e h
      rw [parseTrackSlots] at h
      rcases bindError h with h | ⟨offs, _, h⟩
      · exact Or.inl (rd_error h)
      dsimp only at h
      split_ifs at h
      · rcases bindError h with h | ⟨slot, _, h⟩
        · exact Except.noConfusion h
        rcases bindError h with h | ⟨rest, _, h⟩
        · exact ih _ _ h
        · exact Except.noConfusion h
      · rcases bindError h with h | ⟨slot, _, h⟩
        · exact parseTrack_error h
        rcases bindError h with h | ⟨rest, _, h⟩
        · exact ih _ _ h
        · exact Except.noConfusion h

lemma parseMmad_error {version : Version} {buffer : List Nat} {e : CmabError}
    (h : parseMmad version buffer = .error e) :
    e = .MalformedData ∨ e = .UnsupportedTrackType := by
  rw [parseMmad] at h
  rcases bindError h with h | ⟨u, _, h⟩
  · exact Or.inl (assertTag_error h)
  rcases bindError h with h | ⟨a, _, h⟩
  · exact Or.inl (rd_error h)
  rcases bindError h with h | ⟨b, _, h⟩
  · exact Or.inl (rd_error h)
  rcases bindError h with h | ⟨c, _, h⟩
  · exact Or.inl (rd_error h)
  rcases bindError h with h | ⟨tr, _, h⟩
  · exact parseTrackSlots_error version buffer _ _ _ h
  · exact Except.noConfusion h

lemma parseEntries_error (version : Version) (buffer : List Nat) :
    ∀ (n tableIdx : Nat) (e : CmabError), parseEntries version buffer tableIdx n = .error e →
      e = .MalformedData ∨ e = .UnsupportedTrackType := by
  intro n
  induction n with
  | zero => intro tableIdx e h; exact Except.noConfusion h
  | succ n ih =>
      intro tableIdx e h
      rw [parseEntries] at h
      rcases bindError h with h | ⟨offs, _, h⟩
      · exact Or.inl (rd_error h)
      rcases bindError h with h | ⟨entry, _, h⟩
      · exact parseMmad_error h
      rcases bindError h with h | ⟨rest, _, h⟩
      · exact ih _ _ h
      · exact Except.noConfusion h

/-- Every failure of `parse` is `MalformedData` or `UnsupportedTrackType`
(never `InvalidEntryType`), by walking every bind in the parse pipeline. -/
lemma parse_error {version : Version} {buffer : List Nat} {e : CmabError}
    (h : parse version buffer = .error e) :
    e = .MalformedData ∨ e = .UnsupportedTrackType := by
  rw [parse] at h
  rcases bindError h with h | ⟨u1, _, h⟩
  · exact Or.inl (assertTag_error h)
  rcases bindError h with h | ⟨sv, _, h⟩
  · exact Or.inl (rd_error h)
  rcases bindError h with h | ⟨u2, _, h⟩
  · exact Or.inl (assertE_error h)
  rcases bindError h with h | ⟨sz, _, h⟩
  · exact Or.inl (rd_error h)
  rcases bindError h with h | ⟨z, _, h⟩
  · exact Or.inl (rd_error h)
  rcases bindError h with h | ⟨u3, _, h⟩
  · exact Or.inl (assertE_error h)
  rcases bindError h with h | ⟨c1, _, h⟩
  · exact Or.inl (rd_error h)
  rcases bindError h with h | ⟨u4, _, h⟩
  · exact Or.inl (assertE_error h)
  rcases bindError h with h | ⟨c2, _, h⟩
  · exact Or.inl (rd_error h)
  rcases bindError h with h | ⟨u5, _, h⟩
  · exact Or.inl (assertE_error h)
  rcases bindError h with h | ⟨sto, _, h⟩
  · exact Or.inl (rd_error h)
  rcases bindError h with h | ⟨u6, _, h⟩
  · exact Or.inl (assertTag_error h)
  rcases bindError h with h | ⟨ct, _, h⟩
  · exact Or.inl (rd_error h)
  rcases bindError h with h | ⟨u7, _, h⟩
  · exact Or.inl (assertE_error h)
  rcases bindError h with h | ⟨dur, _, h⟩
  · exact Or.inl (rd_error h)
  rcases bindError h with h | ⟨cl, _, h⟩
  · exact Or.inl (rd_error h)
  rcases bindError h with h | ⟨u8, _, h⟩
  · exact Or.inl (assertE_error h)
  rcases bindError h with h | ⟨u9, _, h⟩
  · exact Or.inl (assertTag_error h)
  rcases bindError h with h | ⟨na, _, h⟩
  · exact Or.inl (rd_error h)
  rcases bindError h with h | ⟨entries, _, h⟩
  · exact parseEntries_error version buffer _ _ _ h
  · exact Except.noConfusion h

/-- A signature mismatch in the first four bytes fails the opening assert. -/
lemma assertTag_fail_of_take (buf : List Nat) (sig : List Nat) (h : buf.take 4 ≠ sig) :
    assertTag buf 0 sig = .error .MalformedData := by
  by_cases hlen : 0 + 4 ≤ buf.length
  · have e : readTag buf 0 4 = some (buf.take 4) := by simp [readTag, hlen]
    simp [assertTag, e, h]
  · have e : readTag buf 0 4 = none := by simp [readTag] at hlen ⊢; omega
    simp [assertTag, e]

/-- C6 amended: `parse` is all-or-nothing — it returns a complete container
or fails with a typed error, which is `MalformedData` or
`UnsupportedTrackType` (never `InvalidEntryType`); in particular a buffer
whose first four bytes are not "cmab" fails with `MalformedData`. The
original claim named `MalformedData` as the only failure; the
`UnsupportedTrackType` counterexample forces widening it. -/
theorem C6_all_or_nothing_amended (version : Version) (buf : List Nat) :
    ((∃ c, parse version buf = .ok c) ∨
      parse version buf = .error .MalformedData ∨
      parse version buf = .error .UnsupportedTrackType) ∧
    (buf.take 4 ≠ cmabSig → parse version buf = .error .MalformedData) := by
  constructor
  · rcases hp : parse version buf with e | c
    · rcases parse_error hp with rfl | rfl
      · exact Or.inr (Or.inl rfl)
      · exact Or.inr (Or.inr rfl)
    · exact Or.inl ⟨c, rfl⟩
  · intro hsig
    have e := assertTag_fail_of_take buf cmabSig hsig
    rw [parse, e]
    rfl

/-- Witness for the amended C6: a buffer with a wrong signature fails with
`MalformedData`. -/
theorem C6_all_or_nothing_witness : parse Version.Ocarina badSigBuf = .error .MalformedData :=
  (C6_all_or_nothing_amended Version.Ocarina badSigBuf).2 (by decide)
